import Mathlib

/-!
Shallow embedding of the motion-triggered time-lapse webcam monitor
(`src/App.tsx`) and verification of its specification claims.

The pixel model follows the browser `ImageData` representation: a flat
array of RGBA channel samples together with a width and a height.  The
detection loops are embedded exactly as the source iterates them
(stride 4 over the flat array, out-of-range reads behaving like the
JavaScript `undefined`/NaN propagation, which makes every comparison
with a missing channel false).  Real-number arithmetic of the source is
modelled with exact rationals.
-/

namespace SecurityMonitor

/-- A decoded video frame: flat RGBA channel data plus dimensions,
mirroring the browser `ImageData` object. -/
structure ImageData where
  width : Nat
  height : Nat
  data : List Nat
deriving DecidableEq

/-- The pixel triples (r, g, b) read off a flat RGBA array, one per
stride-4 step, exactly as the detection loops visit them.  A trailing
chunk of exactly three channels is still a visited position; a shorter
one yields no pixel. -/
def pixelsOf : List Nat → List (Nat × Nat × Nat)
  | r :: g :: b :: _ :: rest => (r, g, b) :: pixelsOf rest
  | [r, g, b] => [(r, g, b)]
  | _ => []

/-- The fire-colour test from `detectFire`: red > 200, green < 140,
blue < 40. -/
def isFirePixel (p : Nat × Nat × Nat) : Bool :=
  decide (p.1 > 200) && decide (p.2.1 < 140) && decide (p.2.2 < 40)

/-- The counting loop of `detectFire`: stride 4 over the flat data,
reading channels i, i+1, i+2.  When fewer than three channels remain
the JavaScript comparison against `undefined` is false, so nothing is
counted there. -/
def countFireLoop : List Nat → Nat
  | r :: g :: b :: _ :: rest =>
      (if r > 200 && g < 140 && b < 40 then 1 else 0) + countFireLoop rest
  | [r, g, b] => if r > 200 && g < 140 && b < 40 then 1 else 0
  | _ => 0

/-- `detectFire` from the source: fire iff the fire-coloured share of
`width * height` pixels, expressed in percent, strictly exceeds 1. -/
def detectFire (imageData : ImageData) : Bool :=
  let firePixels := countFireLoop imageData.data
  let totalPixels := imageData.width * imageData.height
  let firePercentage : ℚ := ((firePixels : ℚ) / (totalPixels : ℚ)) * 100
  decide (firePercentage > 1)

theorem countFireLoop_eq_countP (d : List Nat) :
    countFireLoop d = (pixelsOf d).countP isFirePixel := by
  suffices h : ∀ n d, List.length d = n →
      countFireLoop d = (pixelsOf d).countP isFirePixel from h _ d rfl
  intro n
  induction n using Nat.strong_induction_on with
  | _ n ih =>
    intro d hn
    match d with
    | [] => simp [countFireLoop, pixelsOf]
    | [r] => simp [countFireLoop, pixelsOf]
    | [r, g] => simp [countFireLoop, pixelsOf]
    | [r, g, b] =>
      rw [countFireLoop, pixelsOf, List.countP_cons, List.countP_nil, isFirePixel]
      by_cases h1 : 200 < r
      · by_cases h2 : g < 140
        · by_cases h3 : b < 40
          · simp [h1, h2, h3]
          · simp [h1, h2, h3]
        · simp [h1, h2]
      · simp [h1]
    | r :: g :: b :: a :: rest =>
      rw [countFireLoop, pixelsOf, List.countP_cons]
      have hlt : rest.length < n := by
        subst hn
        simp only [List.length_cons]
        omega
      rw [ih _ hlt _ rfl, isFirePixel]
      simp only [decide_eq_true_eq, gt_iff_lt]
      by_cases h1 : 200 < r
      · by_cases h2 : g < 140
        · by_cases h3 : b < 40
          · simp [h1, h2, h3]
            omega
          · simp [h1, h2, h3]
        · simp [h1, h2]
      · simp [h1]

/-- The summed absolute channel difference `|ΔR| + |ΔG| + |ΔB|` of two
pixels, as computed by the motion loop in `detectMotion`. -/
def pixelDiff (c p : Nat × Nat × Nat) : Nat :=
  ((c.1 : Int) - (p.1 : Int)).natAbs + ((c.2.1 : Int) - (p.2.1 : Int)).natAbs +
    ((c.2.2 : Int) - (p.2.2 : Int)).natAbs

/-- A position counts as changed when its summed channel difference
strictly exceeds 100. -/
def changedPair (cp : (Nat × Nat × Nat) × (Nat × Nat × Nat)) : Bool :=
  decide (pixelDiff cp.1 cp.2 > 100)

/-- The diff-counting loop of `detectMotion`: stride 4 while the index
is below the current frame's data length, reading three channels from
each frame.  A read past the end of either array is the JavaScript
`undefined`; the resulting NaN comparison is false, so such a position
is never counted, while the loop keeps running over the current
frame. -/
def countDiffLoop : List Nat → List Nat → Nat
  | cr :: cg :: cb :: _ :: crest, p =>
      (match p with
       | pr :: pg :: pb :: _ =>
          if ((cr : Int) - (pr : Int)).natAbs + ((cg : Int) - (pg : Int)).natAbs +
              ((cb : Int) - (pb : Int)).natAbs > 100 then 1 else 0
       | _ => 0)
      + countDiffLoop crest (p.drop 4)
  | [cr, cg, cb], p =>
      (match p with
       | pr :: pg :: pb :: _ =>
          if ((cr : Int) - (pr : Int)).natAbs + ((cg : Int) - (pg : Int)).natAbs +
              ((cb : Int) - (pb : Int)).natAbs > 100 then 1 else 0
       | _ => 0)
  | _, _ => 0

/-- The motion decision of `detectMotion` for a current and a previous
frame: the changed share of `width * height` pixels of the current
frame, in percent, strictly exceeds `(100 - sensitivity) / 3`. -/
def motionDecision (cur prev : ImageData) (sensitivity : Nat) : Bool :=
  let diffCount := countDiffLoop cur.data prev.data
  let totalPixels := cur.width * cur.height
  let diffPercentage : ℚ := ((diffCount : ℚ) / (totalPixels : ℚ)) * 100
  decide (diffPercentage > (100 - (sensitivity : ℚ)) / 3)

theorem countDiffLoop_eq_countP (c p : List Nat) (hlen : c.length = p.length) :
    countDiffLoop c p = ((pixelsOf c).zip (pixelsOf p)).countP changedPair := by
  suffices h : ∀ n c p, List.length c = n → List.length c = List.length p →
      countDiffLoop c p = ((pixelsOf c).zip (pixelsOf p)).countP changedPair from
    h _ c p rfl hlen
  intro n
  induction n using Nat.strong_induction_on with
  | _ n ih =>
    intro c p hn hcp
    match c, p with
    | [], [] => simp [countDiffLoop, pixelsOf]
    | [x], [y] => simp [countDiffLoop, pixelsOf]
    | [x1, x2], [y1, y2] => simp [countDiffLoop, pixelsOf]
    | [x1, x2, x3], [y1, y2, y3] =>
      rw [countDiffLoop, pixelsOf, pixelsOf]
      simp only [List.zip_cons_cons, List.zip_nil_right, List.countP_cons, List.countP_nil,
        changedPair, pixelDiff]
      by_cases hd :
          100 < ((x1 : Int) - (y1 : Int)).natAbs + ((x2 : Int) - (y2 : Int)).natAbs +
            ((x3 : Int) - (y3 : Int)).natAbs
      · simp [hd]
      · simp [hd]
    | c1 :: c2 :: c3 :: c4 :: crest, p1 :: p2 :: p3 :: p4 :: prest =>
      rw [countDiffLoop, pixelsOf, pixelsOf]
      simp only [List.zip_cons_cons, List.countP_cons]
      have hdrop : (p1 :: p2 :: p3 :: p4 :: prest).drop 4 = prest := rfl
      have hlt : crest.length < n := by
        subst hn
        simp only [List.length_cons]
        omega
      have hlen2 : crest.length = prest.length := by
        simp only [List.length_cons] at hcp
        omega
      rw [hdrop, ih _ hlt _ _ rfl hlen2, changedPair, pixelDiff]
      simp only [decide_eq_true_eq, gt_iff_lt]
      by_cases hd :
          100 < ((c1 : Int) - (p1 : Int)).natAbs + ((c2 : Int) - (p2 : Int)).natAbs +
            ((c3 : Int) - (p3 : Int)).natAbs
      · simp only [hd, if_true]
        omega
      · simp [hd]
    | [], y :: ys => simp at hcp
    | [x], y1 :: y2 :: ys => simp at hcp
    | [x1, x2], y1 :: y2 :: y3 :: ys => simp at hcp
    | [x1, x2, x3], y1 :: y2 :: y3 :: y4 :: ys => simp at hcp
    | x :: xs, [] => simp at hcp
    | x1 :: x2 :: xs, [y] => simp at hcp
    | x1 :: x2 :: x3 :: xs, [y1, y2] => simp at hcp
    | x1 :: x2 :: x3 :: x4 :: xs, [y1, y2, y3] => simp at hcp

/-- One stored still frame: the encoded image data URL and the
timestamp recorded at append time. -/
structure CapturedFrame where
  dataUrl : String
  timestamp : Nat
deriving DecidableEq

/-- The mutable application state touched by the detection loop:
`DetectionState`, the alarm oscillator presence, the previous-frame
reference, the captured-frame list and the last-capture time. -/
structure AppState where
  isActive : Bool
  motionDetected : Bool
  fireDetected : Bool
  oscActive : Bool
  prevFrame : Option ImageData
  capturedFrames : List CapturedFrame
  lastCaptureTime : Nat
deriving DecidableEq

/-- The initial state of the component: all flags false, no oscillator,
no previous frame, empty capture store, `lastCaptureTimeRef` 0. -/
def initState : AppState :=
  { isActive := false
    motionDetected := false
    fireDetected := false
    oscActive := false
    prevFrame := none
    capturedFrames := []
    lastCaptureTime := 0 }

/-- The environment of one `detectMotion` tick: the sampled frame
(`none` when the video or canvas is unavailable or has zero
dimensions), the sensitivity slider value, the three `Date.now()`
readings taken in program order (cooldown check, entry timestamp,
cooldown stamp), and the result of `captureFrame()`. -/
structure TickInput where
  frame : Option ImageData
  sensitivity : Nat
  tCheck : Nat
  tStamp : Nat
  tSet : Nat
  captureResult : Option String
deriving DecidableEq

/-- The three clock readings of a tick are taken in program order. -/
def TickInput.ordered (inp : TickInput) : Prop :=
  inp.tCheck ≤ inp.tStamp ∧ inp.tStamp ≤ inp.tSet

instance (inp : TickInput) : Decidable inp.ordered := by
  unfold TickInput.ordered
  infer_instance

/-- One execution of `detectMotion` (the per-tick callback).  It
returns early when no frame is available; otherwise it runs fire
detection and the alarm edge logic, and only when a previous frame
exists it runs the motion comparison and the gated capture, finally
retaining the current frame as previous. -/
def detectMotionTick (s : AppState) (inp : TickInput) : AppState :=
  match inp.frame with
  | none => s
  | some currentFrame =>
    let fireDetected := detectFire currentFrame
    let oscActive :=
      if fireDetected && !s.fireDetected then true
      else if !fireDetected && s.fireDetected then false
      else s.oscActive
    let s1 := { s with fireDetected := fireDetected, oscActive := oscActive }
    match s.prevFrame with
    | none => { s1 with prevFrame := some currentFrame }
    | some previousFrame =>
      let motionDetected := motionDecision currentFrame previousFrame inp.sensitivity
      let s2 := { s1 with motionDetected := motionDetected }
      let s3 :=
        if (motionDetected || fireDetected) && decide (inp.tCheck - s.lastCaptureTime > 1000) then
          match inp.captureResult with
          | some url =>
            { s2 with
              capturedFrames := s2.capturedFrames ++ [{ dataUrl := url, timestamp := inp.tStamp }]
              lastCaptureTime := inp.tSet }
          | none => s2
        else s2
      { s3 with prevFrame := some currentFrame }

/-- `stopCamera`: releases the camera and timer, stops the alarm, and
clears the boolean detection flags.  It does not touch the capture
store, the previous-frame reference or `lastCaptureTimeRef`. -/
def stopCamera (s : AppState) : AppState :=
  { s with
    isActive := false
    motionDetected := false
    fireDetected := false
    oscActive := false }

/-- The events a monitoring session is made of: a detection tick, the
stop half of `toggleDetection` (`stopCamera` followed by clearing the
capture store), and a successful camera start. -/
inductive SessionEvent where
  | tick (inp : TickInput)
  | toggleOff
  | cameraStarted
deriving DecidableEq

/-- Event execution on the application state. -/
def execEvent (s : AppState) : SessionEvent → AppState
  | .tick inp => detectMotionTick s inp
  | .toggleOff => { stopCamera s with capturedFrames := [] }
  | .cameraStarted => { s with isActive := true }

/-- Execution of a whole event trace. -/
def execTrace (s : AppState) (evs : List SessionEvent) : AppState :=
  evs.foldl execEvent s

/-- An event is admissible when its clock readings are ordered. -/
def SessionEvent.ordered : SessionEvent → Prop
  | .tick inp => inp.ordered
  | _ => True

instance : (e : SessionEvent) → Decidable e.ordered := by
  intro e
  cases e <;> unfold SessionEvent.ordered <;> infer_instance

/-- A tick either leaves the capture store and the last-capture stamp
untouched, or (exactly when a frame and a previous frame exist, a
detection fired, the cooldown check passed and `captureFrame`
succeeded) appends one entry stamped with the second clock reading and
stores the third as the new last-capture time. -/
theorem detectMotionTick_frames (s : AppState) (inp : TickInput) :
    ((detectMotionTick s inp).capturedFrames = s.capturedFrames ∧
     (detectMotionTick s inp).lastCaptureTime = s.lastCaptureTime) ∨
    (∃ cur prev url, inp.frame = some cur ∧ s.prevFrame = some prev ∧
      inp.captureResult = some url ∧
      (motionDecision cur prev inp.sensitivity || detectFire cur) = true ∧
      1000 < inp.tCheck - s.lastCaptureTime ∧
      (detectMotionTick s inp).capturedFrames
        = s.capturedFrames ++ [{ dataUrl := url, timestamp := inp.tStamp }] ∧
      (detectMotionTick s inp).lastCaptureTime = inp.tSet) := by
  unfold detectMotionTick
  cases hf : inp.frame with
  | none => exact Or.inl ⟨rfl, rfl⟩
  | some cur =>
    cases hp : s.prevFrame with
    | none => exact Or.inl ⟨rfl, rfl⟩
    | some prev =>
      dsimp only
      by_cases hg : ((motionDecision cur prev inp.sensitivity || detectFire cur)
          && decide (inp.tCheck - s.lastCaptureTime > 1000)) = true
      · rw [if_pos hg]
        rw [Bool.and_eq_true, decide_eq_true_eq] at hg
        cases hc : inp.captureResult with
        | none => exact Or.inl ⟨rfl, rfl⟩
        | some url =>
          exact Or.inr ⟨cur, prev, url, rfl, rfl, rfl, hg.1, hg.2, rfl, rfl⟩
      · rw [if_neg hg]
        exact Or.inl ⟨rfl, rfl⟩

/-- The capture-store invariant: stored timestamps are pairwise more
than 1000 ms apart in order, and all of them are bounded by the
last-capture stamp. -/
def CapInv (s : AppState) : Prop :=
  s.capturedFrames.Pairwise (fun a b => a.timestamp + 1000 < b.timestamp) ∧
  ∀ f ∈ s.capturedFrames, f.timestamp ≤ s.lastCaptureTime

theorem capInv_init : CapInv initState := by
  simp [CapInv, initState]

theorem capInv_exec (s : AppState) (e : SessionEvent) (hord : e.ordered) (h : CapInv s) :
    CapInv (execEvent s e) := by
  obtain ⟨hpw, hle⟩ := h
  cases e with
  | toggleOff => simp [CapInv, execEvent]
  | cameraStarted => exact ⟨hpw, hle⟩
  | tick inp =>
    show CapInv (detectMotionTick s inp)
    obtain ⟨hord1, hord2⟩ := hord
    rcases detectMotionTick_frames s inp with ⟨h1, h2⟩ |
      ⟨cur, prev, url, _, _, _, _, hgt, h1, h2⟩
    · exact ⟨h1 ▸ hpw, by rw [h1, h2]; exact hle⟩
    · constructor
      · rw [h1, List.pairwise_append]
        refine ⟨hpw, List.pairwise_singleton _ _, ?_⟩
        intro a ha b hb
        simp only [List.mem_singleton] at hb
        subst hb
        have := hle a ha
        simp only
        omega
      · intro f hf
        rw [h1] at hf
        rw [h2]
        rcases List.mem_append.mp hf with hf | hf
        · have := hle f hf
          omega
        · simp only [List.mem_singleton] at hf
          subst hf
          simp only
          omega

theorem capInv_trace (evs : List SessionEvent) (s : AppState) (h : CapInv s)
    (hord : ∀ e ∈ evs, e.ordered) : CapInv (execTrace s evs) := by
  induction evs generalizing s with
  | nil => exact h
  | cons e t ih =>
    exact ih _ (capInv_exec s e (hord e (List.mem_cons_self e t)) h)
      (fun x hx => hord x (List.mem_cons_of_mem e hx))

/-- The observable outcome of `createTimelapse`: the user-visible error
message if any, the downloadable files produced (one per recorder stop),
and the data URLs actually drawn onto the off-screen canvas, in
order. -/
structure TimelapseResult where
  errorMsg : Option String
  outputFiles : List String
  drawnFrames : List String
deriving DecidableEq

def timelapseErrMsg : String := "Not enough frames captured for timelapse"

def timelapseFileName (now : Nat) : String :=
  "timelapse-" ++ toString now ++ ".webm"

/-- The `drawNextFrame` callback chain, indexing rendered as the
remaining suffix of the frame list: decode each captured frame in
order; on success draw it, on failure log and skip it; either way
advance.  Once the index reaches the frame count, call
`mediaRecorder.stop()` (counted in the second component, each stop
yielding one downloaded file). -/
def drawLoop (decodes : String → Bool) : List CapturedFrame → List String → List String × Nat
  | [], drawn => (drawn, 1)
  | f :: rest, drawn =>
    if decodes f.dataUrl then drawLoop decodes rest (drawn ++ [f.dataUrl])
    else drawLoop decodes rest drawn

/-- `createTimelapse`: with fewer than two captured frames, set the
error message and return.  Otherwise decode the first frame to size the
canvas; if that decode fails only an internal log happens and nothing
further runs.  If it succeeds, the recorder starts and the
`drawNextFrame` chain runs over all frames, ending in exactly one
recorder stop that yields the single downloadable file named from the
current time.  `decodes` tells which data URLs the environment can
decode into images. -/
def createTimelapse (decodes : String → Bool) (now : Nat)
    (frames : List CapturedFrame) : TimelapseResult :=
  if frames.length < 2 then
    { errorMsg := some timelapseErrMsg, outputFiles := [], drawnFrames := [] }
  else
    match frames.head? with
    | none => { errorMsg := none, outputFiles := [], drawnFrames := [] }
    | some first =>
      if decodes first.dataUrl then
        let res := drawLoop decodes frames []
        { errorMsg := none
          outputFiles := List.replicate res.2 (timelapseFileName now)
          drawnFrames := res.1 }
      else
        { errorMsg := none, outputFiles := [], drawnFrames := [] }

theorem drawLoop_eq (decodes : String → Bool) (frames : List CapturedFrame) :
    ∀ drawn, drawLoop decodes frames drawn =
      (drawn ++ frames.filterMap
        (fun f => if decodes f.dataUrl then some f.dataUrl else none), 1) := by
  induction frames with
  | nil =>
    intro drawn
    simp [drawLoop]
  | cons f rest ih =>
    intro drawn
    rw [drawLoop, List.filterMap_cons]
    by_cases hdec : decodes f.dataUrl = true
    · rw [if_pos hdec, if_pos hdec, ih]
      simp
    · rw [if_neg hdec, if_neg hdec, ih]

/-- One scheduled `setValueAtTime` call on the gain parameter. -/
structure GainEvent where
  time : ℚ
  value : ℚ
deriving DecidableEq

/-- The tone generator created by `startAlarm`: oscillator frequency,
wave type, and the gain automation events issued on its gain node. -/
structure Oscillator where
  freq : ℚ
  waveType : String
  gainEvents : List GainEvent
deriving DecidableEq

def squareType : String := "square"

/-- The gain schedule issued by `startAlarm` at audio-context time
`now`: value 1 at `now`, 0 at `now + 0.2`, 1 at `now + 0.4`, 0 at
`now + 0.6`, and nothing else. -/
def alarmGainSchedule (now : ℚ) : List GainEvent :=
  [{ time := now, value := 1 }, { time := now + 1/5, value := 0 },
   { time := now + 2/5, value := 1 }, { time := now + 3/5, value := 0 }]

/-- `startAlarm`: a no-op when an oscillator already exists; otherwise
it creates a 440 Hz square-wave oscillator with the four-event gain
schedule and starts it. -/
def startAlarm (osc : Option Oscillator) (now : ℚ) : Option Oscillator :=
  match osc with
  | some o => some o
  | none =>
    some { freq := 440, waveType := squareType, gainEvents := alarmGainSchedule now }

/-- Web-audio `setValueAtTime` semantics for a chronologically ordered
event list: the gain at time `t` is the value of the latest event not
after `t`, the parameter's default value 1 before any event. -/
def gainAt (events : List GainEvent) (t : ℚ) : ℚ :=
  events.foldl (fun acc e => if e.time ≤ t then e.value else acc) 1

/-- A constant-channel buffer has no fire-coloured pixels whenever the
constant fails the colour test. -/
theorem countFireLoop_replicate (c : Nat)
    (hc : ((c > 200 && c < 140 && c < 40 : Bool)) = false) (n : Nat) :
    countFireLoop (List.replicate n c) = 0 := by
  suffices h : ∀ m n, n ≤ m → countFireLoop (List.replicate n c) = 0 from h n n le_rfl
  intro m
  induction m with
  | zero =>
    intro n hn
    interval_cases n
    rfl
  | succ m ih =>
    intro n hn
    match n with
    | 0 => rfl
    | 1 => simp [countFireLoop]
    | 2 => simp [countFireLoop]
    | 3 =>
      simp only [List.replicate, countFireLoop, hc]
      simp
    | k + 4 =>
      rw [show k + 4 = (k + 3) + 1 by omega, List.replicate_succ]
      rw [show k + 3 = (k + 2) + 1 by omega, List.replicate_succ]
      rw [show k + 2 = (k + 1) + 1 by omega, List.replicate_succ]
      rw [List.replicate_succ, countFireLoop, ih k (by omega), hc]
      simp

/-- A 10 by 10 buffer whose first pixel is pure red and whose other 99
pixels are black: exactly one percent of its pixels is fire-coloured. -/
def fireBoundaryBuffer : ImageData :=
  { width := 10
    height := 10
    data := 255 :: 0 :: 0 :: 255 :: List.replicate 396 0 }

namespace Claims

/-- C1: for a current and a previous buffer of identical dimensions and
any sensitivity in [0, 100], the motion heuristic returns true exactly
when the percentage of pixel positions whose summed absolute channel
difference strictly exceeds 100 is strictly greater than
`(100 - sensitivity) / 3` percent of the total pixel count. -/
theorem motion_heuristic_percentage_iff (cur prev : ImageData) (sensitivity : Nat)
    (_hs : sensitivity ≤ 100) (hw : cur.width = prev.width) (hh : cur.height = prev.height)
    (hc : cur.data.length = 4 * (cur.width * cur.height))
    (hp : prev.data.length = 4 * (prev.width * prev.height)) :
    motionDecision cur prev sensitivity = true ↔
      ((((pixelsOf cur.data).zip (pixelsOf prev.data)).countP changedPair : ℚ) /
          ((cur.width * cur.height : Nat) : ℚ)) * 100
        > (100 - (sensitivity : ℚ)) / 3 := by
  have hlen : cur.data.length = prev.data.length := by rw [hc, hp, hw, hh]
  simp only [motionDecision, countDiffLoop_eq_countP _ _ hlen, decide_eq_true_eq]

def c1cur : ImageData := { width := 1, height := 1, data := [200, 0, 0, 255] }

def c1prev : ImageData := { width := 1, height := 1, data := [0, 0, 0, 255] }

theorem motion_heuristic_percentage_iff_witness :
    (30 : Nat) ≤ 100 ∧
    (motionDecision c1cur c1prev 30 = true ↔
      ((((pixelsOf c1cur.data).zip (pixelsOf c1prev.data)).countP changedPair : ℚ) /
          ((c1cur.width * c1cur.height : Nat) : ℚ)) * 100
        > (100 - ((30 : Nat) : ℚ)) / 3) :=
  ⟨by decide, motion_heuristic_percentage_iff c1cur c1prev 30 (by decide) rfl rfl rfl rfl⟩

/-- C2 counterexample: a 10 by 10 buffer with exactly one fire-coloured
pixel has exactly 1 percent of its pixels fire-coloured — so "at least
1 percent" holds — yet `detectFire` returns false, because the code
demands a strictly greater ratio. -/
theorem fire_heuristic_at_least_one_percent_cex :
    ((pixelsOf fireBoundaryBuffer.data).countP isFirePixel : ℚ) /
        ((fireBoundaryBuffer.width * fireBoundaryBuffer.height : Nat) : ℚ) ≥ 1 / 100 ∧
    detectFire fireBoundaryBuffer = false := by
  constructor
  · have hcount : (pixelsOf fireBoundaryBuffer.data).countP isFirePixel = 1 := by
      rw [← countFireLoop_eq_countP]
      simp only [fireBoundaryBuffer, countFireLoop, countFireLoop_replicate 0 (by decide)]
      norm_num
    rw [hcount]
    simp only [fireBoundaryBuffer]
    norm_num
  · simp only [fireBoundaryBuffer, detectFire, countFireLoop,
      countFireLoop_replicate 0 (by decide)]
    norm_num

/-- C2 (amended): the fire heuristic returns true exactly when the
fraction of fire-coloured pixels (red > 200, green < 140, blue < 40)
strictly exceeds 1 percent of the total pixel count; consequently every
all-black, all-white, or empty buffer yields false. -/
theorem fire_heuristic_strict_one_percent (img : ImageData) (w h : Nat) :
    (detectFire img = true ↔
      ((pixelsOf img.data).countP isFirePixel : ℚ) /
          ((img.width * img.height : Nat) : ℚ) > 1 / 100) ∧
    detectFire { width := w, height := h, data := List.replicate (4 * (w * h)) 0 } = false ∧
    detectFire { width := w, height := h, data := List.replicate (4 * (w * h)) 255 } = false ∧
    detectFire { width := w, height := h, data := [] } = false := by
  refine ⟨?_, ?_, ?_, ?_⟩
  · simp only [detectFire, countFireLoop_eq_countP, decide_eq_true_eq]
    constructor
    · intro hgt
      nlinarith [hgt]
    · intro hgt
      nlinarith [hgt]
  · simp only [detectFire, countFireLoop_replicate 0 (by decide)]
    norm_num
  · simp only [detectFire, countFireLoop_replicate 255 (by decide)]
    norm_num
  · simp only [detectFire, countFireLoop]
    norm_num

def c3cur : ImageData := { width := 1, height := 1, data := [1, 0, 0, 255] }

def c3prev : ImageData := { width := 1, height := 1, data := [0, 0, 0, 255] }

/-- C3 counterexample: two one-pixel buffers that differ (red channel 1
versus 0) have a nonzero per-pixel difference, yet at sensitivity 100
the motion heuristic returns false, because a position only counts as
changed when its summed difference strictly exceeds 100. -/
theorem sensitivity_hundred_nonzero_diff_cex :
    c3cur.data ≠ c3prev.data ∧ motionDecision c3cur c3prev 100 = false := by
  refine ⟨by decide, ?_⟩
  simp only [motionDecision, c3cur, c3prev, countDiffLoop]
  norm_num

/-- C3 (amended): at sensitivity 100 the threshold is 0 percent, so the
motion heuristic fires exactly when at least one position counts as
changed (summed channel difference strictly above 100); at sensitivity
0 it fires exactly when the changed percentage strictly exceeds
100/3 ≈ 33.3. -/
theorem sensitivity_extremes_thresholds (cur prev : ImageData)
    (hpos : 0 < cur.width * cur.height) :
    (motionDecision cur prev 100 = true ↔ 0 < countDiffLoop cur.data prev.data) ∧
    (motionDecision cur prev 0 = true ↔
      ((countDiffLoop cur.data prev.data : ℚ) /
          ((cur.width * cur.height : Nat) : ℚ)) * 100 > 100 / 3) := by
  have ht : (0 : ℚ) < ((cur.width * cur.height : Nat) : ℚ) := by exact_mod_cast hpos
  constructor
  · simp only [motionDecision, decide_eq_true_eq]
    rw [show ((100 : ℚ) - ((100 : Nat) : ℚ)) / 3 = 0 by norm_num]
    constructor
    · intro hgt
      by_contra h0
      push_neg at h0
      have hz : countDiffLoop cur.data prev.data = 0 := by omega
      rw [hz] at hgt
      norm_num at hgt
    · intro h0
      have hc : (0 : ℚ) < (countDiffLoop cur.data prev.data : ℚ) := by exact_mod_cast h0
      exact mul_pos (div_pos hc ht) (by norm_num)
  · simp only [motionDecision, decide_eq_true_eq]
    rw [show ((100 : ℚ) - ((0 : Nat) : ℚ)) / 3 = 100 / 3 by norm_num]

theorem sensitivity_extremes_thresholds_witness :
    0 < c1cur.width * c1cur.height ∧
    (motionDecision c1cur c1prev 100 = true ↔ 0 < countDiffLoop c1cur.data c1prev.data) :=
  ⟨by decide, (sensitivity_extremes_thresholds c1cur c1prev (by decide)).1⟩

def mismatchCur : ImageData :=
  { width := 2
    height := 1
    data := [255, 255, 255, 255, 0, 0, 0, 255] }

def mismatchPrev : ImageData := { width := 1, height := 1, data := [0, 0, 0, 255] }

def mismatchState : AppState := { initState with prevFrame := some mismatchPrev }

def mismatchInput : TickInput :=
  { frame := some mismatchCur
    sensitivity := 30
    tCheck := 0
    tStamp := 0
    tSet := 0
    captureResult := none }

theorem motionDecision_mismatch_true : motionDecision mismatchCur mismatchPrev 30 = true := by
  simp only [motionDecision, mismatchCur, mismatchPrev, countDiffLoop]
  norm_num

theorem detectFire_mismatchCur_false : detectFire mismatchCur = false := by
  simp only [detectFire, mismatchCur, countFireLoop]
  norm_num

/-- C4 counterexample: a tick whose sampled frame has different
dimensions from the previous frame is not skipped.  The diff loop runs
over the current frame's positions (positions beyond the previous
buffer's data never count as changed), and here it sets
`motionDetected` to true despite the mismatch. -/
theorem dimension_mismatch_not_skipped_cex :
    mismatchCur.width ≠ mismatchPrev.width ∧
    (detectMotionTick mismatchState mismatchInput).motionDetected = true := by
  refine ⟨by decide, ?_⟩
  simp [detectMotionTick, mismatchState, mismatchInput, initState,
    motionDecision_mismatch_true, detectFire_mismatchCur_false]

/-- C4 (amended): when the previous buffer is absent, the tick skips
the whole motion branch: `motionDetected` keeps its previous value (in
particular it is never set to true by this tick), nothing is appended
to the capture store and the capture time is not stamped.  Dimension
mismatch, by contrast, is not checked by the code. -/
theorem missing_previous_frame_skips (s : AppState) (inp : TickInput) (f : ImageData)
    (hprev : s.prevFrame = none) (hframe : inp.frame = some f) :
    (detectMotionTick s inp).motionDetected = s.motionDetected ∧
    (detectMotionTick s inp).capturedFrames = s.capturedFrames ∧
    (detectMotionTick s inp).lastCaptureTime = s.lastCaptureTime := by
  simp [detectMotionTick, hframe, hprev]

theorem missing_previous_frame_skips_witness :
    initState.prevFrame = none ∧
    (detectMotionTick initState mismatchInput).motionDetected = initState.motionDetected ∧
    (detectMotionTick initState mismatchInput).capturedFrames = initState.capturedFrames ∧
    (detectMotionTick initState mismatchInput).lastCaptureTime = initState.lastCaptureTime :=
  ⟨rfl, missing_previous_frame_skips initState mismatchInput mismatchCur rfl rfl⟩

/-- C5: along any admissible session trace from the initial state the
capture store never holds two entries whose timestamps are less than
1000 ms apart — in store order every later entry is at least 1000 ms
after every earlier one — and a tick can only change the capture store
when at least 1000 ms lie between the stored last-capture stamp and the
tick's cooldown check. -/
theorem capture_store_spacing (evs : List SessionEvent)
    (hord : ∀ e ∈ evs, e.ordered) :
    ((execTrace initState evs).capturedFrames).Pairwise
      (fun a b => a.timestamp + 1000 ≤ b.timestamp) ∧
    ∀ (s : AppState) (inp : TickInput),
      (detectMotionTick s inp).capturedFrames ≠ s.capturedFrames →
      s.lastCaptureTime + 1000 ≤ inp.tCheck := by
  constructor
  · have h := capInv_trace evs initState capInv_init hord
    exact h.1.imp (fun hab => by omega)
  · intro s inp hne
    rcases detectMotionTick_frames s inp with ⟨h1, _⟩ |
      ⟨_, _, _, _, _, _, _, hgt, _, _⟩
    · exact absurd h1 hne
    · omega

def captureUrl : String := "frame"

def c5tick1 : TickInput :=
  { frame := some c3prev
    sensitivity := 30
    tCheck := 100
    tStamp := 100
    tSet := 100
    captureResult := none }

def c5tick2 : TickInput :=
  { frame := some c1cur
    sensitivity := 30
    tCheck := 2000
    tStamp := 2000
    tSet := 2000
    captureResult := some captureUrl }

def c5trace : List SessionEvent := [.tick c5tick1, .tick c5tick2]

theorem capture_store_spacing_witness :
    (∀ e ∈ c5trace, e.ordered) ∧
    ((execTrace initState c5trace).capturedFrames).Pairwise
      (fun a b => a.timestamp + 1000 ≤ b.timestamp) :=
  ⟨by decide, (capture_store_spacing c5trace (by decide)).1⟩

def fireFrame : ImageData := { width := 1, height := 1, data := [255, 0, 0, 255] }

theorem detectFire_fireFrame_true : detectFire fireFrame = true := by
  simp only [detectFire, fireFrame, countFireLoop]
  norm_num

def c6input : TickInput :=
  { frame := some fireFrame
    sensitivity := 50
    tCheck := 5000
    tStamp := 5000
    tSet := 5000
    captureResult := some captureUrl }

/-- C6 counterexample: on a first tick with no previous buffer, fire is
detected, far more than 1000 ms have elapsed since the (initial) last
capture time, and `captureFrame` would succeed — yet no capture is
invoked and no time is stamped, because the capture block is nested
inside the previous-frame check. -/
theorem fire_without_previous_no_capture_cex :
    detectFire fireFrame = true ∧
    initState.prevFrame = none ∧
    initState.lastCaptureTime + 1000 < c6input.tCheck ∧
    (detectMotionTick initState c6input).capturedFrames = [] ∧
    (detectMotionTick initState c6input).lastCaptureTime = 0 :=
  ⟨detectFire_fireFrame_true, rfl, by decide, rfl, rfl⟩

/-- C6 (amended): captures happen only on ticks that also carry a
previous buffer.  On such a tick, when motion or fire is detected,
strictly more than 1000 ms have elapsed between the stored last-capture
time and the cooldown check, and `captureFrame` succeeds, exactly one
entry stamped with the timestamp reading is appended and the stamp
reading is stored as the new last-capture time. -/
theorem capture_on_detection_with_previous (s : AppState) (inp : TickInput)
    (f p : ImageData) (u : String)
    (hframe : inp.frame = some f) (hprev : s.prevFrame = some p)
    (hdet : (motionDecision f p inp.sensitivity || detectFire f) = true)
    (hcool : 1000 < inp.tCheck - s.lastCaptureTime)
    (hcap : inp.captureResult = some u) :
    (detectMotionTick s inp).capturedFrames
      = s.capturedFrames ++ [{ dataUrl := u, timestamp := inp.tStamp }] ∧
    (detectMotionTick s inp).lastCaptureTime = inp.tSet := by
  simp [detectMotionTick, hframe, hprev, hcap, hdet, hcool]

def c6wInput : TickInput :=
  { frame := some mismatchCur
    sensitivity := 30
    tCheck := 3000
    tStamp := 3100
    tSet := 3200
    captureResult := some captureUrl }

theorem capture_on_detection_with_previous_witness :
    (detectMotionTick mismatchState c6wInput).capturedFrames
      = mismatchState.capturedFrames ++ [{ dataUrl := captureUrl, timestamp := 3100 }] ∧
    (detectMotionTick mismatchState c6wInput).lastCaptureTime = 3200 :=
  capture_on_detection_with_previous mismatchState c6wInput mismatchCur mismatchPrev
    captureUrl rfl rfl
    (by simp [show c6wInput.sensitivity = 30 from rfl, motionDecision_mismatch_true])
    (by decide) rfl

/-- C7: invoking the timelapse assembler with fewer than two captured
frames sets the user-visible error message and performs no work: no
output file, no drawn frame. -/
theorem timelapse_too_few_frames_error (decodes : String → Bool) (now : Nat)
    (frames : List CapturedFrame) (h : frames.length < 2) :
    (createTimelapse decodes now frames).errorMsg = some timelapseErrMsg ∧
    (createTimelapse decodes now frames).outputFiles = [] ∧
    (createTimelapse decodes now frames).drawnFrames = [] := by
  simp [createTimelapse, h]

def alwaysDecodes : String → Bool := fun _ => true

def oneFrameList : List CapturedFrame := [{ dataUrl := captureUrl, timestamp := 0 }]

theorem timelapse_too_few_frames_error_witness :
    oneFrameList.length < 2 ∧
    (createTimelapse alwaysDecodes 0 oneFrameList).errorMsg = some timelapseErrMsg ∧
    (createTimelapse alwaysDecodes 0 oneFrameList).outputFiles = [] ∧
    (createTimelapse alwaysDecodes 0 oneFrameList).drawnFrames = [] :=
  ⟨by decide, timelapse_too_few_frames_error alwaysDecodes 0 oneFrameList (by decide)⟩

def badUrl : String := "bad"

def goodUrl : String := "good"

def c8decodes : String → Bool := fun u => u != badUrl

def c8frames : List CapturedFrame :=
  [{ dataUrl := badUrl, timestamp := 0 }, { dataUrl := goodUrl, timestamp := 2000 }]

/-- C8 counterexample: with two captured frames whose first frame fails
to decode, the assembler produces no output file at all — the
dimension-establishing decode of the first frame fails, only an
internal log happens, and the recorder never runs — instead of skipping
that frame and producing one file. -/
theorem first_frame_decode_failure_no_output_cex :
    c8frames.length = 2 ∧
    c8decodes goodUrl = true ∧
    (createTimelapse c8decodes 0 c8frames).outputFiles = [] ∧
    (createTimelapse c8decodes 0 c8frames).drawnFrames = [] := by
  refine ⟨rfl, by decide, ?_, ?_⟩
  · simp [createTimelapse, c8frames, c8decodes]
  · simp [createTimelapse, c8frames, c8decodes]

/-- C8 (amended): for any N ≥ 2 captured frames whose first frame
decodes, the assembler reports no error, draws exactly the decodable
frames in their original order — a decode failure skips just that
frame — and produces exactly one output file after processing all N
frames.  When the first frame itself fails to decode, assembly never
starts and no output is produced. -/
theorem timelapse_one_output_skipping_failures (decodes : String → Bool) (now : Nat)
    (frames : List CapturedFrame) (f0 : CapturedFrame)
    (h2 : 2 ≤ frames.length) (hhead : frames.head? = some f0)
    (hdec : decodes f0.dataUrl = true) :
    (createTimelapse decodes now frames).outputFiles = [timelapseFileName now] ∧
    (createTimelapse decodes now frames).drawnFrames
      = frames.filterMap (fun f => if decodes f.dataUrl then some f.dataUrl else none) ∧
    (createTimelapse decodes now frames).errorMsg = none := by
  have hlt : ¬ frames.length < 2 := by omega
  simp [createTimelapse, hlt, hhead, hdec, drawLoop_eq]

def c8wframes : List CapturedFrame :=
  [{ dataUrl := goodUrl, timestamp := 0 }, { dataUrl := badUrl, timestamp := 1500 }]

theorem timelapse_one_output_skipping_failures_witness :
    (createTimelapse c8decodes 7 c8wframes).outputFiles = [timelapseFileName 7] ∧
    (createTimelapse c8decodes 7 c8wframes).drawnFrames
      = c8wframes.filterMap (fun f => if c8decodes f.dataUrl then some f.dataUrl else none) ∧
    (createTimelapse c8decodes 7 c8wframes).errorMsg = none :=
  timelapse_one_output_skipping_failures c8decodes 7 c8wframes
    { dataUrl := goodUrl, timestamp := 0 } (by decide) rfl (by decide)

theorem gainAt_alarm (now T : ℚ) :
    gainAt (alarmGainSchedule now) T =
      if now + 3/5 ≤ T then 0
      else if now + 2/5 ≤ T then 1
      else if now + 1/5 ≤ T then 0
      else if now ≤ T then 1
      else 1 := rfl

/-- C9 counterexample: the gain gate pattern is issued exactly once and
never re-issued.  At 800 ms after the alarm starts — the start of the
claimed second on-phase cycle — the scheduled gain is 0, whereas the
cycle start itself has gain 1, so the pattern does not repeat. -/
theorem alarm_gate_not_reissued_cex :
    gainAt (alarmGainSchedule 0) (4/5) = 0 ∧ gainAt (alarmGainSchedule 0) 0 = 1 := by
  constructor
  · rw [gainAt_alarm]
    norm_num
  · rw [gainAt_alarm]
    norm_num

/-- C9 (amended): `startAlarm` with no live oscillator creates a 440 Hz
square-wave tone whose gain is scheduled on for 0–200 ms, off for
200–400 ms, on for 400–600 ms, and off from 600 ms onward; the
four-event gate pattern is issued once, with no further events, so the
pulsing does not repeat. -/
theorem alarm_single_gate_pattern (now t : ℚ) (osc : Oscillator)
    (h : startAlarm none now = some osc) :
    osc.freq = 440 ∧ osc.waveType = squareType ∧
    osc.gainEvents = alarmGainSchedule now ∧
    (0 ≤ t → t < 1/5 → gainAt osc.gainEvents (now + t) = 1) ∧
    (1/5 ≤ t → t < 2/5 → gainAt osc.gainEvents (now + t) = 0) ∧
    (2/5 ≤ t → t < 3/5 → gainAt osc.gainEvents (now + t) = 1) ∧
    (3/5 ≤ t → gainAt osc.gainEvents (now + t) = 0) := by
  have hosc : osc
      = { freq := 440, waveType := squareType, gainEvents := alarmGainSchedule now } := by
    simpa [startAlarm] using h.symm
  subst hosc
  refine ⟨rfl, rfl, rfl, ?_, ?_, ?_, ?_⟩
  · intro ha hb
    rw [gainAt_alarm, if_neg (by linarith), if_neg (by linarith), if_neg (by linarith),
      if_pos (by linarith)]
  · intro ha hb
    rw [gainAt_alarm, if_neg (by linarith), if_neg (by linarith), if_pos (by linarith)]
  · intro ha hb
    rw [gainAt_alarm, if_neg (by linarith), if_pos (by linarith)]
  · intro ha
    rw [gainAt_alarm, if_pos (by linarith)]

def alarmOsc0 : Oscillator :=
  { freq := 440
    waveType := squareType
    gainEvents := alarmGainSchedule 0 }

theorem alarm_single_gate_pattern_witness :
    startAlarm none 0 = some alarmOsc0 ∧
    alarmOsc0.freq = 440 ∧
    gainAt alarmOsc0.gainEvents (0 + 1/2) = 1 :=
  ⟨rfl, (alarm_single_gate_pattern 0 (1/2) alarmOsc0 rfl).1,
    (alarm_single_gate_pattern 0 (1/2) alarmOsc0 rfl).2.2.2.2.2.1
      (by norm_num) (by norm_num)⟩

/-- C10: stopping monitoring (with its store clearing) and restarting
preserves `lastCaptureTimeRef`, so the 1000 ms cooldown carries across
the stop/start boundary: a tick of the new session whose cooldown check
happens at most 1000 ms after the previous session's last capture stamp
appends nothing and leaves the stamp unchanged. -/
theorem cooldown_survives_stop_start (s : AppState) (inp : TickInput)
    (hcool : inp.tCheck ≤ s.lastCaptureTime + 1000) :
    (execEvent (execEvent s .toggleOff) .cameraStarted).lastCaptureTime
      = s.lastCaptureTime ∧
    (detectMotionTick (execEvent (execEvent s .toggleOff) .cameraStarted)
        inp).capturedFrames = [] ∧
    (detectMotionTick (execEvent (execEvent s .toggleOff) .cameraStarted)
        inp).lastCaptureTime = s.lastCaptureTime := by
  have hlast : (execEvent (execEvent s .toggleOff) .cameraStarted).lastCaptureTime
      = s.lastCaptureTime := rfl
  have hempty : (execEvent (execEvent s .toggleOff) .cameraStarted).capturedFrames = [] := rfl
  rcases detectMotionTick_frames (execEvent (execEvent s .toggleOff) .cameraStarted) inp with
    ⟨h1, h2⟩ | ⟨_, _, _, _, _, _, _, hgt, _, _⟩
  · exact ⟨hlast, by rw [h1, hempty], by rw [h2, hlast]⟩
  · rw [hlast] at hgt
    omega

def c10state : AppState :=
  { initState with
    lastCaptureTime := 500
    capturedFrames := [{ dataUrl := captureUrl, timestamp := 500 }]
    prevFrame := some mismatchPrev }

def c10input : TickInput :=
  { frame := some mismatchCur
    sensitivity := 30
    tCheck := 1200
    tStamp := 1200
    tSet := 1200
    captureResult := some captureUrl }

theorem cooldown_survives_stop_start_witness :
    c10input.tCheck ≤ c10state.lastCaptureTime + 1000 ∧
    (execEvent (execEvent c10state .toggleOff) .cameraStarted).lastCaptureTime
      = c10state.lastCaptureTime ∧
    (detectMotionTick (execEvent (execEvent c10state .toggleOff) .cameraStarted)
        c10input).capturedFrames = [] :=
  ⟨by decide, (cooldown_survives_stop_start c10state c10input (by decide)).1,
    (cooldown_survives_stop_start c10state c10input (by decide)).2.1⟩

end Claims

end SecurityMonitor
